import Mathlib

/-!
# dotfile: version control for single configuration files

A shallow embedding of the parts of the repository that its specification
makes promises about:

* `cli/pull.go`              : `pullAll`
* `server/file_settings.go`  : `clearFile`, `deleteFile`
* `db/file.go`               : `File.check`, `fileExists`, `ForkFile`,
                               `setFileToCommitID`, `SetFileToHash`
* the revision engine and the checkout state machine, whose code is not
  among the sources and which are therefore modelled from the specification.

Go `error` values are modelled by the inductive type `Error`; a Go function
returning `error` returns `Option Error` (`none` is `nil`).  Collaborators that
perform I/O (the network client, the SQL driver) are explicit oracles.
-/

set_option autoImplicit false

namespace Dotfile

/-! ## Errors -/

/-- Go error values, by the constructor that built them. -/
inductive Error where
  /-- An error produced by a collaborator outside the repository (SQL driver, network, disk). -/
  | driver (msg : String)
  /-- The value of `errors.New(msg)`. -/
  | new (msg : String)
  /-- The value of `fmt.Errorf(format, args...)`. -/
  | errorf (format : String) (args : List String)
  /-- The value of `errors.Wrap(cause, msg)`. -/
  | wrap (cause : Error) (msg : String)
  /-- The value of `errors.Wrapf(cause, format, args...)`. -/
  | wrapf (cause : Error) (format : String) (args : List String)
  /-- The value of `usererror.Duplicate(field, value)`. -/
  | duplicate (field value : String)
  /-- The value of `usererror.Invalid(msg)`. -/
  | invalid (msg : String)
  deriving DecidableEq, Repr

/-! ## cli/pull.go -/

/-- The `for _, alias := range files` loop of `pullAll`: `pull alias` stands for
`(&local.Storage{Dir: flags.storageDir, Alias: alias}).Pull(client)`, acting on
the world state `σ`. The first error is returned at once. -/
def pullLoop {σ : Type} (pull : String → σ → Option Error × σ) :
    List String → σ → Option Error × σ
  | [], s => (none, s)
  | a :: rest, s =>
    match pull a s with
    | (some err, s1) => (some err, s1)
    | (none, s1) => pullLoop pull rest s1

/-- The function `pullAll(client)`: `list` stands for `client.List(false)`. -/
def pullAll {σ : Type} (list : σ → Except Error (List String) × σ)
    (pull : String → σ → Option Error × σ) (s : σ) : Option Error × σ :=
  match list s with
  | (Except.error err, s1) => (some err, s1)
  | (Except.ok files, s1) => pullLoop pull files s1

/-- The record of the calls made to `Pull`: the alias and what the call returned. -/
abbrev PullLog := List (String × Option Error)

/-- A `Pull` collaborator that also records each call in the log. -/
def recorded {σ : Type} (pull : String → σ → Option Error × σ) :
    String → σ × PullLog → Option Error × (σ × PullLog) :=
  fun a s => ((pull a s.1).1, ((pull a s.1).2, s.2 ++ [(a, (pull a s.1).1)]))

/-- A `List` collaborator acting on a world that carries a log it does not touch. -/
def unrecorded {σ : Type} (list : σ → Except Error (List String) × σ) :
    σ × PullLog → Except Error (List String) × (σ × PullLog) :=
  fun s => ((list s.1).1, ((list s.1).2, s.2))

/-- Whether an error value carries the string `s` as context: `s` is one of the
arguments formatted into the error or into one of its causes, or the value of a
Duplicate error. -/
def Error.carries : Error → String → Bool
  | Error.driver _, _ => false
  | Error.new _, _ => false
  | Error.errorf _ args, s => decide (s ∈ args)
  | Error.wrap cause _, s => cause.carries s
  | Error.wrapf cause _ args, s => decide (s ∈ args) || cause.carries s
  | Error.duplicate _ value, s => decide (s = value)
  | Error.invalid _, _ => false

/-- Modelled from the spec: `(*local.Storage).Pull` is not among the sources. By
section 7 of the spec every failure is returned to the caller "with enough
context (alias, hash, user)" and I/O failures are "wrapped with operation
context (which alias, which hash) before propagation": an error returned by the
pull of an alias carries that alias. -/
def PullNamesAlias {σ : Type} (pull : String → σ → Option Error × σ) : Prop :=
  ∀ a s e, (pull a s).1 = some e → e.carries a = true

/-! ## server/file_settings.go -/

/-- The calls a handler makes on its `*sql.Tx`. -/
inductive TxCall where
  | commit
  | rollback
  deriving DecidableEq, Repr

/-- The part of `*Page` and of the request the two handlers read. -/
structure Page where
  /-- The value of `p.Vars["username"]`. -/
  varsUsername : String
  /-- The value of `p.Vars["alias"]`. -/
  varsAlias : String
  /-- The value of `p.Session.Username`. -/
  sessionUsername : String
  /-- The value of `r.Form.Get("delete")`. -/
  formDelete : String
  deriving DecidableEq, Repr

/-- What a handler did: the error it handed to `p.setError`, or the URL it
redirected to, and the calls it made on the transaction, in order. -/
structure Handled where
  setError : Option Error
  redirect : Option String
  txCalls : List TxCall
  /-- Whether `db.Connection.Begin()` was called at all. -/
  began : Bool
  deriving DecidableEq, Repr

/-- Modelled from the spec: `db.Rollback(tx, err)` is not among the sources; by
the spec a failed mutation "is rolled back and the error is propagated
unchanged", so it calls `tx.Rollback()` and returns `err`. -/
def Rollback (calls : List TxCall) (err : Error) : List TxCall × Error :=
  (calls ++ [TxCall.rollback], err)

/-- The handler `clearFile`: `begin` is the result of `db.Connection.Begin()`,
`clearCommits username alias` that of `db.ClearCommits(tx, username, alias)`,
`commit` that of `tx.Commit()`. -/
def clearFile (begin : Option Error) (clearCommits : String → String → Option Error)
    (commit : Option Error) (p : Page) : Handled :=
  let username := p.varsUsername
  let alias_ := p.varsAlias
  match begin with
  | some err =>
    { setError := some (Error.wrap err "starting transaction for clear file"),
      redirect := none, txCalls := [], began := true }
  | none =>
    match clearCommits username alias_ with
    | some err =>
      let rb := Rollback [] err
      { setError := some rb.2, redirect := none, txCalls := rb.1, began := true }
    | none =>
      match commit with
      | some err =>
        { setError := some (Error.wrap err "commiting transaction for clear file"),
          redirect := none, txCalls := [TxCall.commit], began := true }
      | none =>
        { setError := none,
          redirect := some ("/" ++ p.sessionUsername ++ "/" ++ alias_ ++ "/commits"),
          txCalls := [TxCall.commit], began := true }

/-- The handler `deleteFile`, with `deleteFileOp username alias` the result of
`db.DeleteFile(tx, username, alias)`. -/
def deleteFile (begin : Option Error) (deleteFileOp : String → String → Option Error)
    (commit : Option Error) (p : Page) : Handled :=
  let delete := p.formDelete
  let username := p.varsUsername
  let alias_ := p.varsAlias
  if alias_ ≠ delete then
    { setError := some (Error.invalid "Alias does not match"),
      redirect := none, txCalls := [], began := false }
  else
    match begin with
    | some err =>
      { setError := some (Error.wrap err "starting transaction for delete file"),
        redirect := none, txCalls := [], began := true }
    | none =>
      match deleteFileOp username alias_ with
      | some err =>
        let rb := Rollback [] err
        { setError := some rb.2, redirect := none, txCalls := rb.1, began := true }
      | none =>
        match commit with
        | some err =>
          { setError := some (Error.wrap err "commiting transaction for delete file"),
            redirect := none, txCalls := [TxCall.commit], began := true }
        | none =>
          { setError := none,
            redirect := some ("/" ++ p.sessionUsername),
            txCalls := [TxCall.commit], began := true }

/-! ## db/file.go -/

/-- Byte strings (`[]byte`). -/
abbrev Bytes := List UInt8

/-- A row of the `users` table, as far as the queries of `db/file.go` read it. -/
structure User where
  id : Nat
  username : String
  deriving DecidableEq, Repr

/-- The struct `File`, a row of the `files` table. Times are clock readings. -/
structure File where
  id : Nat
  userID : Nat
  alias_ : String
  path : String
  currentCommitID : Option Nat
  createdAt : Nat
  updatedAt : Nat
  deriving DecidableEq, Repr

/-- Modelled from the spec: the struct `Commit` is not among the sources; the
spec lists its columns as id, file id, hash, compressed revision, message,
forked-from reference and timestamp. -/
structure Commit where
  id : Nat
  fileID : Nat
  hash : String
  revision : Bytes
  message : String
  forkedFrom : Option Nat
  timestamp : Nat
  deriving DecidableEq, Repr

/-- The struct `FileView`: a file record with the uncompressed content and the
hash of its current commit. -/
structure FileView where
  file : File
  content : Bytes
  hash : String
  deriving DecidableEq, Repr

/-- The committed contents of the database, which is what `connection` reads. -/
structure DB where
  users : List User
  files : List File
  commits : List Commit
  deriving DecidableEq, Repr

/-- The places where `db/file.go` calls the SQL driver (or a helper that is not
among the sources), each of which may fail for reasons outside the tables. -/
inductive Site where
  | begin
  | getFile
  | fileExists
  | countFiles
  | insertFile
  | getCommit
  | insertCommit
  | setFileToCommitID
  | commit
  | setFileToHash
  | rowsAffected
  deriving DecidableEq, Repr

/-- What `db/file.go` takes from outside: the clock, the constant
`maxFilesPerUser`, the helpers `checkFile` and `file.Uncompress`, the driver
failure (if any) at each call site, and whether the helper `insert` rolls the
transaction back when it returns a given error. -/
structure Env where
  now : Nat
  maxFilesPerUser : Nat
  checkFile : String → String → Option Error
  uncompress : Bytes → Except Error Bytes
  fault : Site → Option Error
  insertRollsBack : Error → Bool

/-- The key by which a `COLLATE NOCASE` column compares its text: upper case
ASCII letters are folded to lower case. -/
def nocase (s : String) : List Char :=
  s.data.map Char.toLower

/-- The rowid given to a row inserted into a table whose rowids are `ids`:
one more than the largest, 1 in an empty table (`INTEGER PRIMARY KEY`). -/
def nextID (ids : List Nat) : Nat :=
  ids.foldr max 0 + 1

/-- The function `fileExists`:
`SELECT COUNT(*) FROM files WHERE user_id = ? AND alias = ?`, then `count > 0`. -/
def fileExists (env : Env) (db : DB) (userID : Nat) (alias_ : String) : Except Error Bool :=
  match env.fault Site.fileExists with
  | some err =>
    Except.error (Error.wrapf err "checking if file %#v exists for user %d"
      [alias_, toString userID])
  | none =>
    let count := (db.files.filter
      (fun f => decide (f.userID = userID ∧ nocase f.alias_ = nocase alias_))).length
    Except.ok (decide (count > 0))

/-- The method `(*File).check`. -/
def File.check (env : Env) (db : DB) (f : File) : Option Error :=
  match env.checkFile f.alias_ f.path with
  | some err => some err
  | none =>
    match fileExists env db f.userID f.alias_ with
    | Except.error err => some err
    | Except.ok true => some (Error.duplicate "File alias" f.alias_)
    | Except.ok false =>
      match env.fault Site.countFiles with
      | some err => some (Error.wrapf err "counting user %d file" [toString f.userID])
      | none =>
        let count := (db.files.filter (fun g => decide (g.userID = f.userID))).length
        if count > env.maxFilesPerUser then
          some (Error.invalid "User has maximum amount of files")
        else
          none

/-- The state of a `*sql.Tx`. -/
inductive TxStatus where
  | active
  | committed
  | rolledBack
  deriving DecidableEq, Repr

/-- A transaction: the tables as the transaction sees them, and its status.
Nothing of it reaches the committed tables before `Commit`. -/
structure Tx where
  files : List File
  commits : List Commit
  status : TxStatus
  deriving DecidableEq, Repr

/-- The call `connection.Begin()` once it has succeeded. -/
def beginTx (db : DB) : Tx :=
  { files := db.files, commits := db.commits, status := TxStatus.active }

/-- Modelled from the spec: the helper `rollback(tx, err)` is not among the
sources; by the spec a failed mutation "is rolled back and the error is
propagated unchanged". The tables of the transaction are discarded. -/
def rollback (db : DB) (tx : Tx) (err : Error) : Tx × Error :=
  ({ tx with files := db.files, commits := db.commits, status := TxStatus.rolledBack }, err)

/-- The method `(*File).insertStmt` run on the transaction:
`INSERT INTO files(user_id, alias, path, current_commit_id) VALUES(?, ?, ?, ?)`.
The unique indexes `files_user_alias_index` and `files_user_path_index` of
`createStmt` reject a second row with the same user and alias, or user and
path; `created_at` and `updated_at` take their default, the current time. -/
def File.insertStmt (env : Env) (tx : Tx) (f : File) : Except Error (Nat × Tx) :=
  match env.fault Site.insertFile with
  | some err => Except.error err
  | none =>
    if tx.files.any
        (fun g => decide (g.userID = f.userID ∧ nocase g.alias_ = nocase f.alias_)) then
      Except.error (Error.driver "UNIQUE constraint failed: files.user_id, files.alias")
    else if tx.files.any
        (fun g => decide (g.userID = f.userID ∧ nocase g.path = nocase f.path)) then
      Except.error (Error.driver "UNIQUE constraint failed: files.user_id, files.path")
    else
      let id := nextID (tx.files.map File.id)
      Except.ok (id, { tx with files := tx.files ++
        [{ f with id := id, createdAt := env.now, updatedAt := env.now }] })

/-- What the helper `insert` leaves of the transaction when it fails with `err`:
rolled back if `insert` does that for this error, untouched otherwise. -/
def insertFailed (env : Env) (db : DB) (tx : Tx) (err : Error) : Tx :=
  if env.insertRollsBack err then (rollback db tx err).1 else tx

/-- Modelled from the spec: the helper `insert(i, tx)` is not among the sources.
For a `File` it runs the method `check` (creation validates the alias, the path
and the per-user cap) and then `insertStmt` on the transaction, and returns the
new row id. Whether it rolls back on failure is left to `env.insertRollsBack`. -/
def insertFile (env : Env) (db : DB) (tx : Tx) (f : File) : Except Error Nat × Tx :=
  match File.check env db f with
  | some err => (Except.error err, insertFailed env db tx err)
  | none =>
    match File.insertStmt env tx f with
    | Except.error err => (Except.error err, insertFailed env db tx err)
    | Except.ok (id, tx1) => (Except.ok id, tx1)

/-- Modelled from the spec: `insert(i, tx)` for a `Commit`, whose `check` and
`insertStmt` are not among the sources: unless the call fails (`Site.insertCommit`)
the commit is appended to the commits of the transaction under a fresh id. -/
def insertCommit (env : Env) (db : DB) (tx : Tx) (c : Commit) : Except Error Nat × Tx :=
  match env.fault Site.insertCommit with
  | some err => (Except.error err, insertFailed env db tx err)
  | none =>
    let id := nextID (tx.commits.map Commit.id)
    (Except.ok id, { tx with commits := tx.commits ++ [{ c with id := id }] })

/-- The rows of the query of `GetFile`:
`files JOIN users ON user_id = users.id JOIN commits ON current_commit_id = commits.id
WHERE username = ? AND alias = ?`. -/
def getFileRows (db : DB) (username alias_ : String) : List (File × Commit) :=
  db.files.flatMap fun f =>
    db.users.flatMap fun u =>
      db.commits.filterMap fun c =>
        if f.userID = u.id ∧ f.currentCommitID = some c.id ∧
            u.username = username ∧ nocase f.alias_ = nocase alias_ then
          some (f, c)
        else
          none

/-- The function `GetFile`, with `(*FileView).scan`: the first row of the query,
its revision uncompressed; any failure is wrapped. -/
def GetFile (env : Env) (db : DB) (username alias_ : String) : Except Error FileView :=
  let wrapped := fun (err : Error) =>
    Error.wrapf err "querying for user %#v file %#v" [username, alias_]
  match env.fault Site.getFile with
  | some err => Except.error (wrapped err)
  | none =>
    match (getFileRows db username alias_).head? with
    | none => Except.error (wrapped (Error.driver "sql: no rows in result set"))
    | some (f, c) =>
      match env.uncompress c.revision with
      | Except.error err => Except.error (wrapped err)
      | Except.ok content => Except.ok { file := f, content := content, hash := c.hash }

/-- The rows `commits JOIN files ON files.id = commits.file_id
JOIN users ON files.user_id = users.id WHERE username = ? AND alias = ? AND hash = ?`,
the join that `SetFileToHash` spells out. -/
def commitRows (db : DB) (username alias_ hash : String) : List Commit :=
  db.commits.flatMap fun c =>
    db.files.flatMap fun f =>
      db.users.filterMap fun u =>
        if f.id = c.fileID ∧ f.userID = u.id ∧
            u.username = username ∧ nocase f.alias_ = nocase alias_ ∧ c.hash = hash then
          some c
        else
          none

/-- Modelled from the spec: `GetCommit(username, alias, hash)` is not among the
sources; it looks up the commit with that hash in the chain of the file
(username, alias), by the same join as `SetFileToHash`. -/
def GetCommit (env : Env) (db : DB) (username alias_ hash : String) : Except Error Commit :=
  match env.fault Site.getCommit with
  | some err => Except.error err
  | none =>
    match (commitRows db username alias_ hash).head? with
    | none => Except.error (Error.driver "sql: no rows in result set")
    | some c => Except.ok c

/-- The function `setFileToCommitID`:
`UPDATE files SET current_commit_id = ?, updated_at = CURRENT_TIMESTAMP WHERE id = ?`
on the transaction; a failure rolls the transaction back. -/
def setFileToCommitID (env : Env) (db : DB) (tx : Tx) (fileID commitID : Nat) :
    Option Error × Tx :=
  match env.fault Site.setFileToCommitID with
  | some err =>
    let rb := rollback db tx
      (Error.wrapf err "updating content in file %d" [toString fileID])
    (some rb.2, rb.1)
  | none =>
    (none, { tx with files := tx.files.map fun f =>
      if f.id = fileID then
        { f with currentCommitID := some commitID, updatedAt := env.now }
      else f })

/-- What `ForkFile` returns and leaves behind: the error, the committed tables,
and the transaction (if one was begun). -/
structure ForkResult where
  err : Option Error
  db : DB
  tx : Option Tx
  deriving DecidableEq, Repr

/-- The function `ForkFile(username, alias, hash, newUserID)`. `GetFile`,
`GetCommit` and the `check` inside `insert` read through `connection`, that is
the committed tables; the two inserts and the update go through `tx`. -/
def ForkFile (env : Env) (db : DB) (username alias_ hash : String) (newUserID : Nat) :
    ForkResult :=
  match env.fault Site.begin with
  | some err =>
    { err := some (Error.wrap err "starting fork file transaction"), db := db, tx := none }
  | none =>
    let tx := beginTx db
    match GetFile env db username alias_ with
    | Except.error err =>
      let rb := rollback db tx err
      { err := some rb.2, db := db, tx := some rb.1 }
    | Except.ok fileForkee =>
      let newFile : File :=
        { id := 0, userID := newUserID, alias_ := alias_, path := fileForkee.file.path,
          currentCommitID := none, createdAt := 0, updatedAt := 0 }
      match insertFile env db tx newFile with
      | (Except.error err, tx1) => { err := some err, db := db, tx := some tx1 }
      | (Except.ok newFileID, tx1) =>
        match GetCommit env db username alias_ hash with
        | Except.error err =>
          let rb := rollback db tx1 err
          { err := some rb.2, db := db, tx := some rb.1 }
        | Except.ok commitForkee =>
          let newCommit : Commit :=
            { commitForkee with
              fileID := newFileID
              forkedFrom := some commitForkee.id
              message := "/" ++ username ++ "/" ++ alias_ ++ "/" ++ hash }
          match insertCommit env db tx1 newCommit with
          | (Except.error err, tx2) => { err := some err, db := db, tx := some tx2 }
          | (Except.ok newCommitID, tx2) =>
            match setFileToCommitID env db tx2 newFileID newCommitID with
            | (some err, tx3) => { err := some err, db := db, tx := some tx3 }
            | (none, tx3) =>
              match env.fault Site.commit with
              | some err =>
                { err := some (Error.wrap err "closing fork file transaction"),
                  db := db, tx := some tx3 }
              | none =>
                { err := none,
                  db := { db with files := tx3.files, commits := tx3.commits },
                  tx := some { tx3 with status := TxStatus.committed } }

/-- The common table expression `new_commit(id, file_id)` of `SetFileToHash`. -/
def newCommitRows (db : DB) (username alias_ hash : String) : List (Nat × Nat) :=
  (commitRows db username alias_ hash).map fun c => (c.id, c.fileID)

/-- The function `SetFileToHash(username, alias, hash)`: one statement on
`connection`. The two scalar subqueries take the first row of `new_commit`, or
NULL when it is empty, and `id = NULL` holds of no row. -/
def SetFileToHash (env : Env) (db : DB) (username alias_ hash : String) :
    Option Error × DB :=
  match env.fault Site.setFileToHash with
  | some err =>
    (some (Error.wrapf err "setting %q %q to hash %q" [username, alias_, hash]), db)
  | none =>
    let new_commit := newCommitRows db username alias_ hash
    let newID : Option Nat := new_commit.head?.map Prod.fst
    let fileID : Option Nat := new_commit.head?.map Prod.snd
    let affected := (db.files.filter (fun f => decide (fileID = some f.id))).length
    let db1 : DB :=
      { db with files := db.files.map fun f =>
          if fileID = some f.id then
            { f with currentCommitID := newID, updatedAt := env.now }
          else f }
    match env.fault Site.rowsAffected with
    | some err => (some (Error.wrap err "getting rows affected in set file to hash"), db1)
    | none =>
      if affected = 0 then
        (some (Error.errorf "commit %q %q %q not found" [username, alias_, hash]), db1)
      else
        (none, db1)

/-- The claim "the File (username, alias) has a commit with that hash in its
chain", in the words of the spec: some commit with that hash belongs to a file
with that alias (as the alias column compares) of the user with that name. -/
def hasCommit (db : DB) (username alias_ hash : String) : Prop :=
  ∃ c ∈ db.commits, ∃ f ∈ db.files, ∃ u ∈ db.users,
    f.id = c.fileID ∧ f.userID = u.id ∧ u.username = username ∧
    nocase f.alias_ = nocase alias_ ∧ c.hash = hash

instance (db : DB) (username alias_ hash : String) :
    Decidable (hasCommit db username alias_ hash) := by
  unfold hasCommit
  infer_instance

/-! ## The revision engine and checkout -/

/-- Modelled from the spec: the error taxonomy of section 7 (the engine's error
values are not among the sources). -/
inductive Failure where
  | notFound
  | conflict
  | noChanges
  | corruptChain
  | notTracked
  | internal
  deriving DecidableEq, Repr

/-- Modelled from the spec: the Storer capability of section 6, whose interface
is not among the sources: the raw working-copy bytes, the known commit hashes in
chain order, the stored revision bytes of a hash. -/
structure Storer where
  dirtyContent : Except Failure Bytes
  hashes : List String
  revision : String → Except Failure Bytes

/-- Modelled from the spec: the byte-level collaborators of the revision engine,
none of them among the sources: the decompressor, the patch application
(content, then patch) and the content digest. -/
structure Codec where
  uncompress : Bytes → Option Bytes
  applyPatch : Bytes → Bytes → Option Bytes
  digest : Bytes → String

/-- Modelled from the spec: the replay loop of `Reconstruct` is not among the
sources. Each further commit's revision is decompressed and applied as a patch
to the running content; a decompression or patch failure is CorruptChain. -/
def replay (k : Codec) (s : Storer) : Bytes → List String → Except Failure Bytes
  | content, [] => Except.ok content
  | content, h :: rest =>
    match s.revision h with
    | Except.error e => Except.error e
    | Except.ok rev =>
      match k.uncompress rev with
      | none => Except.error Failure.corruptChain
      | some patch =>
        match k.applyPatch content patch with
        | none => Except.error Failure.corruptChain
        | some next => replay k s next rest

/-- Modelled from the spec: `Reconstruct(storer, hash)` is not among the
sources. It locates `hash` in the ordered hash list (NotFound if absent),
decompresses the first commit's revision as the seed, replays every later
commit up to and including the target, and checks the digest of the result
against `hash` (CorruptChain on a mismatch). -/
def Reconstruct (k : Codec) (s : Storer) (hash : String) : Except Failure Bytes :=
  if hash ∈ s.hashes then
    match s.hashes.takeWhile (fun h => decide (h ≠ hash)) ++ [hash] with
    | [] => Except.error Failure.notFound
    | first :: rest =>
      match s.revision first with
      | Except.error e => Except.error e
      | Except.ok rev =>
        match k.uncompress rev with
        | none => Except.error Failure.corruptChain
        | some seed =>
          match replay k s seed rest with
          | Except.error e => Except.error e
          | Except.ok content =>
            if k.digest content = hash then Except.ok content
            else Except.error Failure.corruptChain
  else
    Except.error Failure.notFound

/-- Modelled from the spec: `IsClean(storer, hash)` is not among the sources
(only its test is). It reconstructs the content at `hash`, reads the storer's
current raw working-copy content, and reports whether the two are
byte-identical; it fails if either read fails. -/
def IsClean (k : Codec) (s : Storer) (hash : String) : Except Failure Bool :=
  match Reconstruct k s hash with
  | Except.error e => Except.error e
  | Except.ok content =>
    match s.dirtyContent with
    | Except.error e => Except.error e
    | Except.ok dirty => Except.ok (decide (dirty = content))

/-- Modelled from the spec: a tracked File on the client (section 3): its
working-copy path, its commit chain, and the hash it is checked out to (none
before the first commit). -/
structure Tracked where
  path : String
  hashes : List String
  revision : String → Except Failure Bytes
  currentCommitHash : Option String

/-- Modelled from the spec: the client's state, the tracked Files by alias and
the disk by path (a path without content is an absent file). -/
structure Local where
  tracked : String → Option Tracked
  disk : String → Option Bytes

/-- Modelled from the spec: the Storer of a tracked File; its working copy is
the file at its path, and reading an absent file fails. -/
def Tracked.storer (st : Local) (t : Tracked) : Storer :=
  { dirtyContent :=
      match st.disk t.path with
      | some bytes => Except.ok bytes
      | none => Except.error Failure.internal,
    hashes := t.hashes,
    revision := t.revision }

/-- Modelled from the spec: the success step of checkout, which is not among the
sources: the reconstructed content of the target is written to the working-copy
path and the current commit moves to the target hash. -/
def checkoutWrite (k : Codec) (st : Local) (alias_ : String) (t : Tracked) (hash : String) :
    Option Failure × Local :=
  match Reconstruct k (t.storer st) hash with
  | Except.error e => (some e, st)
  | Except.ok content =>
    (none,
      { tracked := fun a =>
          if a = alias_ then some { t with currentCommitHash := some hash } else st.tracked a,
        disk := fun p => if p = t.path then some content else st.disk p })

/-- Modelled from the spec: `checkout(hash)` is not among the sources (only its
test is). The File must be tracked (NotTracked otherwise). If the working-copy
file is absent (Missing) checkout proceeds; if it is present and differs from
the content at the current commit (Dirty) checkout fails with Conflict. On
success the target's content is written and the pointer moves. -/
def checkout (k : Codec) (st : Local) (alias_ hash : String) : Option Failure × Local :=
  match st.tracked alias_ with
  | none => (some Failure.notTracked, st)
  | some t =>
    match st.disk t.path with
    | none => checkoutWrite k st alias_ t hash
    | some _ =>
      match t.currentCommitHash with
      | none => (some Failure.notFound, st)
      | some current =>
        match IsClean k (t.storer st) current with
        | Except.error e => (some e, st)
        | Except.ok false => (some Failure.conflict, st)
        | Except.ok true => checkoutWrite k st alias_ t hash

/-! ## Sample data -/

/-- A sample environment: cap of two files, no driver failure, `checkFile`
rejecting empty values, `insert` not rolling back. -/
def sampleEnv : Env :=
  { now := 7, maxFilesPerUser := 2,
    checkFile := fun a p => if a = "" ∨ p = "" then some (Error.invalid "empty") else none,
    uncompress := fun b => Except.ok b,
    fault := fun _ => none,
    insertRollsBack := fun _ => false }

/-- A sample database: bob tracks bashrc (one commit) and vimrc (no commit);
alice tracks nothing. -/
def sampleDB : DB :=
  { users := [⟨1, "bob"⟩, ⟨2, "alice"⟩],
    files := [⟨1, 1, "bashrc", "~/.bashrc", some 1, 0, 0⟩,
              ⟨2, 1, "vimrc", "~/.vimrc", none, 0, 0⟩],
    commits := [⟨1, 1, "h1", [1, 2], "init", none, 0⟩] }

/-- The sample environment with a driver failure at one call site. -/
def sampleEnvFailing (site : Site) : Env :=
  { sampleEnv with fault := fun s => if s = site then some (Error.driver "disk I/O error") else none }

/-- A codec for samples: revisions are stored as they are, a patch replaces the
content, and the digest of a content is "h" followed by its length. -/
def sampleCodec : Codec :=
  { uncompress := fun b => some b,
    applyPatch := fun _ patch => some patch,
    digest := fun b => "h" ++ toString b.length }

/-- A sample tracked File with two commits, checked out to the second. -/
def sampleTracked : Tracked :=
  { path := "~/.bashrc",
    hashes := ["h1", "h2"],
    revision := fun h =>
      if h = "h1" then Except.ok [1]
      else if h = "h2" then Except.ok [1, 2]
      else Except.error Failure.notFound,
    currentCommitHash := some "h2" }

/-- A sample client state: bashrc is tracked and its working copy is `wc`. -/
def sampleLocal (wc : Option Bytes) : Local :=
  { tracked := fun a => if a = "bashrc" then some sampleTracked else none,
    disk := fun p => if p = "~/.bashrc" then wc else none }

/-! # Theorems -/

/-! ## pullAll -/

/-- Recording the calls changes neither the error returned nor the world. -/
theorem pullLoop_recorded_erase {σ : Type} (pull : String → σ → Option Error × σ)
    (files : List String) (s : σ) (log : PullLog) :
    (pullLoop (recorded pull) files (s, log)).1 = (pullLoop pull files s).1 ∧
    (pullLoop (recorded pull) files (s, log)).2.1 = (pullLoop pull files s).2 := by
  induction files generalizing s log with
  | nil => simp [pullLoop]
  | cons a rest ih =>
    rcases h : pull a s with ⟨r, s1⟩
    cases r with
    | none => simpa [pullLoop, recorded, h] using ih s1 (log ++ [(a, none)])
    | some e => simp [pullLoop, recorded, h]

/-- The log after the loop: either every alias was pulled with success, or the
log stops at the first alias whose pull failed, and that failure is returned. -/
theorem pullLoop_recorded_log {σ : Type} (pull : String → σ → Option Error × σ)
    (files : List String) (s : σ) (log : PullLog) :
    ((pullLoop (recorded pull) files (s, log)).1 = none ∧
      (pullLoop (recorded pull) files (s, log)).2.2
        = log ++ files.map (fun a => (a, none))) ∨
    (∃ pre a post e, files = pre ++ a :: post ∧
      (pullLoop (recorded pull) files (s, log)).1 = some e ∧
      (pullLoop (recorded pull) files (s, log)).2.2
        = log ++ pre.map (fun a => (a, none)) ++ [(a, some e)]) := by
  induction files generalizing s log with
  | nil => left; simp [pullLoop]
  | cons a rest ih =>
    rcases h : pull a s with ⟨r, s1⟩
    cases r with
    | some e =>
      right
      exact ⟨[], a, rest, e, by simp, by simp [pullLoop, recorded, h],
        by simp [pullLoop, recorded, h]⟩
    | none =>
      have hstep : pullLoop (recorded pull) (a :: rest) (s, log)
          = pullLoop (recorded pull) rest (s1, log ++ [(a, none)]) := by
        simp [pullLoop, recorded, h]
      rw [hstep]
      rcases ih s1 (log ++ [(a, none)]) with ⟨h1, h2⟩ | ⟨pre, b, post, e, hf, h1, h2⟩
      · left
        exact ⟨h1, by simp [h2]⟩
      · right
        exact ⟨a :: pre, b, post, e, by simp [hf], h1, by simp [h2]⟩

/-- The loop without a log: an error comes out exactly when some alias is the
first whose pull fails, and it is the value that pull returned. -/
theorem pullLoop_error_split {σ : Type} (pull : String → σ → Option Error × σ)
    (files : List String) (s s1 : σ) (e : Error)
    (h : pullLoop pull files s = (some e, s1)) :
    ∃ pre a post s0, files = pre ++ a :: post ∧
      pullLoop pull pre s = (none, s0) ∧ pull a s0 = (some e, s1) := by
  induction files generalizing s with
  | nil => simp [pullLoop] at h
  | cons a rest ih =>
    rcases hp : pull a s with ⟨r, s2⟩
    cases r with
    | some e2 =>
      simp only [pullLoop, hp, Prod.mk.injEq, Option.some.injEq] at h
      obtain ⟨rfl, rfl⟩ := h
      exact ⟨[], a, rest, s, by simp, by simp [pullLoop], hp⟩
    | none =>
      simp only [pullLoop, hp] at h
      obtain ⟨pre, b, post, s0, hf, h1, h2⟩ := ih s2 h
      exact ⟨a :: pre, b, post, s0, by simp [hf], by simp [pullLoop, hp, h1], h2⟩

/-- C7. `pullAll` stops at the first failure. When listing fails, the listing
error is returned and no alias is pulled. When listing gives `files`, the calls
to `Pull` are recorded in list order and either every alias of `files` was
pulled with success and `pullAll` returns nil, or `files = pre ++ a :: post`
where exactly the aliases of `pre` and then `a` were attempted, those of `pre`
succeeded, the pull of `a` failed with `e`, nothing of `post` was attempted, and
`pullAll` returns `e`. Recording does not change what `pullAll` returns. -/
theorem pullAll_stops_at_first_failure {σ : Type}
    (list : σ → Except Error (List String) × σ)
    (pull : String → σ → Option Error × σ) (s : σ) :
    (pullAll (unrecorded list) (recorded pull) (s, [])).1 = (pullAll list pull s).1 ∧
    (pullAll (unrecorded list) (recorded pull) (s, [])).2.1 = (pullAll list pull s).2 ∧
    (∀ err, (list s).1 = Except.error err →
      (pullAll (unrecorded list) (recorded pull) (s, [])).1 = some err ∧
      (pullAll (unrecorded list) (recorded pull) (s, [])).2.2 = []) ∧
    (∀ files, (list s).1 = Except.ok files →
      ((pullAll (unrecorded list) (recorded pull) (s, [])).1 = none ∧
        (pullAll (unrecorded list) (recorded pull) (s, [])).2.2
          = files.map (fun a => (a, none))) ∨
      (∃ pre a post e, files = pre ++ a :: post ∧
        (pullAll (unrecorded list) (recorded pull) (s, [])).1 = some e ∧
        (pullAll (unrecorded list) (recorded pull) (s, [])).2.2
          = pre.map (fun a => (a, none)) ++ [(a, some e)])) := by
  rcases hl : list s with ⟨r, s1⟩
  cases r with
  | error err =>
    simp [pullAll, unrecorded, hl]
  | ok files =>
    have hrun : pullAll (unrecorded list) (recorded pull) (s, [])
        = pullLoop (recorded pull) files (s1, []) := by
      simp [pullAll, unrecorded, hl]
    have hplain : pullAll list pull s = pullLoop pull files s1 := by
      simp [pullAll, hl]
    rw [hrun, hplain]
    refine ⟨(pullLoop_recorded_erase pull files s1 []).1,
      (pullLoop_recorded_erase pull files s1 []).2, ?_, ?_⟩
    · intro err h
      simp at h
    · intro files2 h
      simp only [Except.ok.injEq] at h
      subst h
      simpa using pullLoop_recorded_log pull files s1 []

/-- Witness of `pullAll_stops_at_first_failure`: three aliases are listed and the
pull of the second fails; the third is never attempted. -/
theorem pullAll_stops_at_first_failure_witness :
    (pullAll (unrecorded (fun (s : Unit) => (Except.ok ["bashrc", "vimrc", "zshrc"], s)))
        (recorded (fun a (s : Unit) =>
          if a = "vimrc" then (some (Error.driver "timeout"), s) else (none, s)))
        ((), [])).1 = some (Error.driver "timeout") ∧
    (pullAll (unrecorded (fun (s : Unit) => (Except.ok ["bashrc", "vimrc", "zshrc"], s)))
        (recorded (fun a (s : Unit) =>
          if a = "vimrc" then (some (Error.driver "timeout"), s) else (none, s)))
        ((), [])).2.2 = [("bashrc", none), ("vimrc", some (Error.driver "timeout"))] ∧
    (pullAll (unrecorded (fun (s : Unit) => (Except.ok ["bashrc", "vimrc", "zshrc"], s)))
        (recorded (fun a (s : Unit) =>
          if a = "vimrc" then (some (Error.driver "timeout"), s) else (none, s)))
        ((), [])).1
      = (pullAll (fun (s : Unit) => (Except.ok ["bashrc", "vimrc", "zshrc"], s))
        (fun a (s : Unit) =>
          if a = "vimrc" then (some (Error.driver "timeout"), s) else (none, s)) ()).1 :=
  ⟨by decide, by decide,
    (pullAll_stops_at_first_failure
      (fun (s : Unit) => (Except.ok ["bashrc", "vimrc", "zshrc"], s))
      (fun a (s : Unit) =>
        if a = "vimrc" then (some (Error.driver "timeout"), s) else (none, s)) ()).1⟩

/-- C10. When `pullAll` aborts because the pull of some alias failed, the error
it returns identifies that alias: with every error of `Pull` carrying the alias
it was pulling, the listed aliases split as `pre ++ a :: post`, every pull of
`pre` succeeded, the pull of `a` failed, and the error that `pullAll` returns is
the very value that pull returned and carries `a`. -/
theorem pullAll_error_carries_alias {σ : Type}
    (list : σ → Except Error (List String) × σ)
    (pull : String → σ → Option Error × σ) (s s1 s2 : σ)
    (files : List String) (e : Error)
    (hpull : PullNamesAlias pull)
    (hlist : list s = (Except.ok files, s1))
    (hfail : pullAll list pull s = (some e, s2)) :
    ∃ pre a post s0, files = pre ++ a :: post ∧
      pullLoop pull pre s1 = (none, s0) ∧ pull a s0 = (some e, s2) ∧
      e.carries a = true := by
  have h : pullLoop pull files s1 = (some e, s2) := by
    simpa [pullAll, hlist] using hfail
  obtain ⟨pre, a, post, s0, hf, h1, h2⟩ := pullLoop_error_split pull files s1 s2 e h
  exact ⟨pre, a, post, s0, hf, h1, h2, hpull a s0 e (by rw [h2])⟩

/-- Witness of `pullAll_error_carries_alias`: two aliases, the pull of the
second fails with an error wrapped with its alias. -/
theorem pullAll_error_carries_alias_witness :
    ∃ pre a post s0, ["bashrc", "vimrc"] = pre ++ a :: post ∧
      pullLoop (fun a (n : Nat) =>
          if a = "vimrc" then
            (some (Error.wrapf (Error.driver "timeout") "pulling %q" [a]), n)
          else (none, n + 1)) pre 0
        = (none, s0) ∧
      (fun a (n : Nat) =>
          if a = "vimrc" then
            (some (Error.wrapf (Error.driver "timeout") "pulling %q" [a]), n)
          else (none, n + 1)) a s0
        = (some (Error.wrapf (Error.driver "timeout") "pulling %q" ["vimrc"]), 1) ∧
      (Error.wrapf (Error.driver "timeout") "pulling %q" ["vimrc"]).carries a = true :=
  pullAll_error_carries_alias
    (fun n => (Except.ok ["bashrc", "vimrc"], n))
    (fun a (n : Nat) =>
      if a = "vimrc" then
        (some (Error.wrapf (Error.driver "timeout") "pulling %q" [a]), n)
      else (none, n + 1))
    0 0 1 ["bashrc", "vimrc"]
    (Error.wrapf (Error.driver "timeout") "pulling %q" ["vimrc"])
    (by
      intro a n e h
      by_cases ha : a = "vimrc"
      · simp only [ha, if_true, Option.some.injEq] at h
        subst h
        simp [ha, Error.carries]
      · simp [ha] at h)
    rfl (by decide)

/-! ## clearFile and deleteFile -/

/-- C8. Once the transaction has begun (and, for `deleteFile`, the alias was
confirmed): if the database operation fails with `e`, the only call made on the
transaction is `Rollback`, `Commit` is never called, and the error handed to
`setError` is `e` itself; if the operation succeeds, the only call made on the
transaction is one `Commit`, and it is never rolled back. -/
theorem clear_delete_transactional (op : String → String → Option Error)
    (commit : Option Error) (p : Page) :
    (∀ e, op p.varsUsername p.varsAlias = some e →
      (clearFile none op commit p).txCalls = [TxCall.rollback] ∧
      TxCall.commit ∉ (clearFile none op commit p).txCalls ∧
      (clearFile none op commit p).setError = some e) ∧
    (op p.varsUsername p.varsAlias = none →
      (clearFile none op commit p).txCalls = [TxCall.commit] ∧
      (clearFile none op commit p).txCalls.count TxCall.commit = 1 ∧
      TxCall.rollback ∉ (clearFile none op commit p).txCalls) ∧
    (p.varsAlias = p.formDelete →
      (∀ e, op p.varsUsername p.varsAlias = some e →
        (deleteFile none op commit p).txCalls = [TxCall.rollback] ∧
        TxCall.commit ∉ (deleteFile none op commit p).txCalls ∧
        (deleteFile none op commit p).setError = some e) ∧
      (op p.varsUsername p.varsAlias = none →
        (deleteFile none op commit p).txCalls = [TxCall.commit] ∧
        (deleteFile none op commit p).txCalls.count TxCall.commit = 1 ∧
        TxCall.rollback ∉ (deleteFile none op commit p).txCalls)) := by
  refine ⟨?_, ?_, ?_⟩
  · intro e h
    simp [clearFile, h, Rollback]
  · intro h
    cases commit <;> simp [clearFile, h]
  · intro hconf
    refine ⟨?_, ?_⟩
    · intro e h
      rw [hconf] at h
      simp [deleteFile, hconf, h, Rollback]
    · intro h
      rw [hconf] at h
      cases commit <;> simp [deleteFile, hconf, h]

/-- Witness of `clear_delete_transactional`: the operation fails, the handler
rolls back and reports that very error. -/
theorem clear_delete_transactional_witness :
    (clearFile none (fun _ _ => some (Error.driver "locked")) none
        ⟨"bob", "bashrc", "bob", "bashrc"⟩).txCalls = [TxCall.rollback] ∧
    TxCall.commit ∉ (clearFile none (fun _ _ => some (Error.driver "locked")) none
        ⟨"bob", "bashrc", "bob", "bashrc"⟩).txCalls ∧
    (clearFile none (fun _ _ => some (Error.driver "locked")) none
        ⟨"bob", "bashrc", "bob", "bashrc"⟩).setError = some (Error.driver "locked") :=
  (clear_delete_transactional (fun _ _ => some (Error.driver "locked")) none
    ⟨"bob", "bashrc", "bob", "bashrc"⟩).1 (Error.driver "locked") rfl

/-! ## db/file.go -/

/-- Every rowid of a table is below the rowid given to the next row. -/
theorem lt_nextID (ids : List Nat) (x : Nat) (h : x ∈ ids) : x < nextID ids := by
  induction ids with
  | nil => simp at h
  | cons y ys ih =>
    simp only [nextID, List.foldr_cons] at ih ⊢
    rcases List.mem_cons.mp h with rfl | h
    · omega
    · have := ih h
      omega

/-- The rows of the join of `SetFileToHash`, as a set. -/
theorem mem_commitRows (db : DB) (username alias_ hash : String) (c : Commit) :
    c ∈ commitRows db username alias_ hash ↔
      c ∈ db.commits ∧ ∃ f ∈ db.files, ∃ u ∈ db.users,
        f.id = c.fileID ∧ f.userID = u.id ∧ u.username = username ∧
        nocase f.alias_ = nocase alias_ ∧ c.hash = hash := by
  unfold commitRows
  simp only [List.mem_flatMap, List.mem_filterMap]
  constructor
  · rintro ⟨c2, hc2, f, hf, u, hu, h⟩
    split at h
    · rename_i hcond
      simp only [Option.some.injEq] at h
      subst h
      exact ⟨hc2, f, hf, u, hu, hcond⟩
    · simp at h
  · rintro ⟨hc, f, hf, u, hu, hcond⟩
    exact ⟨c, hc, f, hf, u, hu, by simp [hcond]⟩

/-- The rows of the query of `GetFile`, as a set. -/
theorem mem_getFileRows (db : DB) (username alias_ : String) (f : File) (c : Commit) :
    (f, c) ∈ getFileRows db username alias_ ↔
      f ∈ db.files ∧ c ∈ db.commits ∧ ∃ u ∈ db.users,
        f.userID = u.id ∧ f.currentCommitID = some c.id ∧ u.username = username ∧
        nocase f.alias_ = nocase alias_ := by
  unfold getFileRows
  simp only [List.mem_flatMap, List.mem_filterMap]
  constructor
  · rintro ⟨f2, hf2, u, hu, c2, hc2, h⟩
    split at h
    · rename_i hcond
      simp only [Option.some.injEq, Prod.mk.injEq] at h
      obtain ⟨rfl, rfl⟩ := h
      exact ⟨hf2, hc2, u, hu, hcond⟩
    · simp at h
  · rintro ⟨hf, hc, u, hu, hcond⟩
    exact ⟨f, hf, u, hu, c, hc, by simp [hcond]⟩

/-- C3. With the statement executed by the driver, `SetFileToHash` succeeds if
and only if the File (username, alias) has a commit with that hash in its
chain. On success there are such a commit `c` of such a file `f`, and the
tables afterwards are the tables before with only the rows of id `f.id` changed:
their current commit is `c` (and their update time the current time), every
other File row is as before. When there is no such commit the not-found error
is returned and the database is unchanged. -/
theorem SetFileToHash_spec (env : Env) (db : DB) (username alias_ hash : String)
    (hexec : env.fault Site.setFileToHash = none)
    (hrows : env.fault Site.rowsAffected = none) :
    ((SetFileToHash env db username alias_ hash).1 = none ↔
      hasCommit db username alias_ hash) ∧
    ((SetFileToHash env db username alias_ hash).1 = none →
      ∃ c ∈ db.commits, ∃ f ∈ db.files, ∃ u ∈ db.users,
        f.id = c.fileID ∧ f.userID = u.id ∧ u.username = username ∧
        nocase f.alias_ = nocase alias_ ∧ c.hash = hash ∧
        (SetFileToHash env db username alias_ hash).2 =
          { db with files := db.files.map fun g =>
              if g.id = f.id then
                { g with currentCommitID := some c.id, updatedAt := env.now }
              else g }) ∧
    (¬ hasCommit db username alias_ hash →
      (SetFileToHash env db username alias_ hash).1 =
          some (Error.errorf "commit %q %q %q not found" [username, alias_, hash]) ∧
      (SetFileToHash env db username alias_ hash).2 = db) := by
  cases hrowsEq : commitRows db username alias_ hash with
  | nil =>
    have hno : ¬ hasCommit db username alias_ hash := by
      rintro ⟨c, hc, f, hf, u, hu, hcond⟩
      have : c ∈ commitRows db username alias_ hash :=
        (mem_commitRows db username alias_ hash c).2 ⟨hc, f, hf, u, hu, hcond⟩
      rw [hrowsEq] at this
      simp at this
    have hrun : SetFileToHash env db username alias_ hash =
        (some (Error.errorf "commit %q %q %q not found" [username, alias_, hash]), db) := by
      simp [SetFileToHash, hexec, hrows, newCommitRows, hrowsEq]
    rw [hrun]
    simp [hno]
  | cons c rest =>
    have hmem : c ∈ commitRows db username alias_ hash := by
      rw [hrowsEq]; simp
    obtain ⟨hc, f, hf, u, hu, hcond⟩ := (mem_commitRows db username alias_ hash c).1 hmem
    have hyes : hasCommit db username alias_ hash := ⟨c, hc, f, hf, u, hu, hcond⟩
    have hpos : (db.files.filter (fun g => decide (some c.fileID = some g.id))).length ≠ 0 := by
      intro h0
      have hnil := List.length_eq_zero.mp h0
      have : f ∈ db.files.filter (fun g => decide (some c.fileID = some g.id)) := by
        simp [List.mem_filter, hf, hcond.1]
      rw [hnil] at this
      simp at this
    have hrun : SetFileToHash env db username alias_ hash =
        (none, { db with files := db.files.map fun g =>
              if g.id = f.id then
                { g with currentCommitID := some c.id, updatedAt := env.now }
              else g }) := by
      simp only [SetFileToHash, hexec, hrows, newCommitRows, hrowsEq, List.map_cons,
        List.head?_cons, Option.map_some', if_neg hpos]
      simp only [Option.some.injEq, hcond.1, eq_comm]
    rw [hrun]
    refine ⟨by simp [hyes], fun _ => ⟨c, hc, f, hf, u, hu, hcond.1, hcond.2.1, hcond.2.2.1,
      hcond.2.2.2.1, hcond.2.2.2.2, rfl⟩, fun h => absurd hyes h⟩

/-- Witness of `SetFileToHash_spec` on the sample database. -/
theorem SetFileToHash_spec_witness :
    sampleEnv.fault Site.setFileToHash = none ∧
    sampleEnv.fault Site.rowsAffected = none ∧
    ((SetFileToHash sampleEnv sampleDB "bob" "bashrc" "h1").1 = none ↔
      hasCommit sampleDB "bob" "bashrc" "h1") ∧
    (¬ hasCommit sampleDB "alice" "bashrc" "h1" →
      (SetFileToHash sampleEnv sampleDB "alice" "bashrc" "h1").1 =
          some (Error.errorf "commit %q %q %q not found" ["alice", "bashrc", "h1"]) ∧
      (SetFileToHash sampleEnv sampleDB "alice" "bashrc" "h1").2 = sampleDB) :=
  ⟨rfl, rfl, (SetFileToHash_spec sampleEnv sampleDB "bob" "bashrc" "h1" rfl rfl).1,
    (SetFileToHash_spec sampleEnv sampleDB "alice" "bashrc" "h1" rfl rfl).2.2⟩

/-- What `fileExists` answers when its query runs: whether some File of the
user has that alias, as the alias column compares. -/
theorem fileExists_ok (env : Env) (db : DB) (userID : Nat) (alias_ : String)
    (hex : env.fault Site.fileExists = none) :
    fileExists env db userID alias_ = Except.ok
      (decide (∃ g ∈ db.files, g.userID = userID ∧ nocase g.alias_ = nocase alias_)) := by
  simp only [fileExists, hex]
  congr 1
  by_cases h : ∃ g ∈ db.files, g.userID = userID ∧ nocase g.alias_ = nocase alias_
  · obtain ⟨g, hg, hcond⟩ := h
    have hmem : g ∈ db.files.filter
        (fun f => decide (f.userID = userID ∧ nocase f.alias_ = nocase alias_)) := by
      simp [List.mem_filter, hg, hcond]
    have hpos := List.length_pos_of_mem hmem
    simp only [gt_iff_lt, hpos, decide_True]
    symm
    simp only [decide_eq_true_eq]
    exact ⟨g, hg, hcond⟩
  · have hnil : db.files.filter
        (fun f => decide (f.userID = userID ∧ nocase f.alias_ = nocase alias_)) = [] := by
      rw [List.filter_eq_nil_iff]
      intro g hg hc
      simp only [decide_eq_true_eq] at hc
      exact h ⟨g, hg, hc⟩
    simp only [hnil, List.length_nil, gt_iff_lt, lt_self_iff_false, decide_False]
    symm
    simp only [decide_eq_false_iff_not]
    exact h

/-- C4 (the code at the failing input). A File that passes `checkFile`, whose
alias is new for its user, and whose user already owns exactly
`maxFilesPerUser` files is accepted by `check`: the comparison is
`count > maxFilesPerUser`, so the user comes to own one file more than the cap. -/
theorem check_accepts_at_cap (env : Env) (db : DB) (f : File)
    (hcf : env.checkFile f.alias_ f.path = none)
    (hex : env.fault Site.fileExists = none)
    (hcnt : env.fault Site.countFiles = none)
    (hfresh : ¬ ∃ g ∈ db.files, g.userID = f.userID ∧ nocase g.alias_ = nocase f.alias_)
    (hcap : (db.files.filter (fun g => decide (g.userID = f.userID))).length
      = env.maxFilesPerUser) :
    File.check env db f = none := by
  simp [File.check, hcf, fileExists_ok env db f.userID f.alias_ hex, hfresh, hcnt, hcap]

/-- C9 (amended). Alias uniqueness is validated by `check`: for a File with
non-empty alias and path (which `checkFile` accepts) and with the existence
query executed, if the alias is already used by a File of the same user then
`check` returns the user-facing Duplicate error for the alias; if the alias is
unused by that user, the count query is executed and the user is below the cap,
then `check` accepts the File, whatever its path. -/
theorem check_alias_unique (env : Env) (db : DB) (f : File)
    (hspec : ∀ a p, a ≠ "" → p ≠ "" → env.checkFile a p = none)
    (halias : f.alias_ ≠ "") (hpath : f.path ≠ "")
    (hex : env.fault Site.fileExists = none) :
    ((∃ g ∈ db.files, g.userID = f.userID ∧ nocase g.alias_ = nocase f.alias_) →
      File.check env db f = some (Error.duplicate "File alias" f.alias_)) ∧
    ((¬ ∃ g ∈ db.files, g.userID = f.userID ∧ nocase g.alias_ = nocase f.alias_) →
      env.fault Site.countFiles = none →
      (db.files.filter (fun g => decide (g.userID = f.userID))).length
          < env.maxFilesPerUser →
      File.check env db f = none) := by
  have hcf := hspec f.alias_ f.path halias hpath
  constructor
  · intro hused
    simp [File.check, hcf, fileExists_ok env db f.userID f.alias_ hex, hused]
  · intro hfresh hcnt hbelow
    have : ¬ (db.files.filter (fun g => decide (g.userID = f.userID))).length
        > env.maxFilesPerUser := by omega
    simp [File.check, hcf, fileExists_ok env db f.userID f.alias_ hex, hfresh, hcnt, this]

/-- What `check` does above the cap: with a new alias and more than
`maxFilesPerUser` files, the limit error is returned. -/
theorem check_rejects_above_cap (env : Env) (db : DB) (f : File)
    (hcf : env.checkFile f.alias_ f.path = none)
    (hex : env.fault Site.fileExists = none)
    (hcnt : env.fault Site.countFiles = none)
    (hfresh : ¬ ∃ g ∈ db.files, g.userID = f.userID ∧ nocase g.alias_ = nocase f.alias_)
    (hcap : (db.files.filter (fun g => decide (g.userID = f.userID))).length
      > env.maxFilesPerUser) :
    File.check env db f = some (Error.invalid "User has maximum amount of files") := by
  simp [File.check, hcf, fileExists_ok env db f.userID f.alias_ hex, hfresh, hcnt, hcap]

/-- Witness of `check_accepts_at_cap`: the cap is 2, bob owns 2 files, a third
one is accepted, and after the insert bob owns 3. -/
theorem check_accepts_at_cap_witness :
    (sampleDB.files.filter (fun g => decide (g.userID = 1))).length
      = sampleEnv.maxFilesPerUser ∧
    File.check sampleEnv sampleDB ⟨0, 1, "zshrc", "~/.zshrc", none, 0, 0⟩ = none ∧
    ((insertFile sampleEnv sampleDB (beginTx sampleDB)
        ⟨0, 1, "zshrc", "~/.zshrc", none, 0, 0⟩).2.files.filter
      (fun g => decide (g.userID = 1))).length = sampleEnv.maxFilesPerUser + 1 :=
  ⟨by decide,
    check_accepts_at_cap sampleEnv sampleDB ⟨0, 1, "zshrc", "~/.zshrc", none, 0, 0⟩
      (by decide) rfl rfl (by decide) (by decide),
    by decide⟩

/-- C9 (as stated, refuted). Bob already has a File at the path "~/.bashrc"; a
new File of bob with that path and the unused alias "other" passes `check`. -/
theorem check_ignores_duplicate_path :
    (∃ g ∈ sampleDB.files, g.userID = 1 ∧ g.path = "~/.bashrc") ∧
    File.check sampleEnv sampleDB ⟨0, 1, "other", "~/.bashrc", none, 0, 0⟩ = none := by
  decide

/-- Witness of `check_alias_unique`: the alias "bashrc" is in use by bob. -/
theorem check_alias_unique_witness :
    (∃ g ∈ sampleDB.files, g.userID = 1 ∧ nocase g.alias_ = nocase "bashrc") ∧
    File.check sampleEnv sampleDB ⟨0, 1, "bashrc", "~/elsewhere", none, 0, 0⟩
      = some (Error.duplicate "File alias" "bashrc") :=
  ⟨by decide,
    (check_alias_unique sampleEnv sampleDB ⟨0, 1, "bashrc", "~/elsewhere", none, 0, 0⟩
      (by intro a p ha hp; simp [sampleEnv, ha, hp])
      (by decide) (by decide) rfl).1 (by decide)⟩

/-- What happens to a duplicate path: the unique index on (user, path) makes
the INSERT fail with a driver error when the user already has a File at that
path (and the alias is new and the driver does not fail otherwise). -/
theorem insertStmt_rejects_duplicate_path (env : Env) (tx : Tx) (f : File)
    (hio : env.fault Site.insertFile = none)
    (halias : ¬ ∃ g ∈ tx.files, g.userID = f.userID ∧ nocase g.alias_ = nocase f.alias_)
    (hpath : ∃ g ∈ tx.files, g.userID = f.userID ∧ nocase g.path = nocase f.path) :
    File.insertStmt env tx f
      = Except.error (Error.driver "UNIQUE constraint failed: files.user_id, files.path") := by
  simp [File.insertStmt, hio, halias, hpath]

/-- A successful `insert` of a File appends it under the next rowid. -/
theorem insertFile_ok (env : Env) (db : DB) (tx tx1 : Tx) (f : File) (id : Nat)
    (h : insertFile env db tx f = (Except.ok id, tx1)) :
    id = nextID (tx.files.map File.id) ∧
    tx1 = { tx with files := tx.files ++
      [{ f with id := nextID (tx.files.map File.id),
                createdAt := env.now, updatedAt := env.now }] } := by
  unfold insertFile at h
  split at h
  · simp at h
  · split at h
    · simp at h
    · rename_i id2 tx2 hstmt
      simp only [Prod.mk.injEq, Except.ok.injEq] at h
      obtain ⟨rfl, rfl⟩ := h
      unfold File.insertStmt at hstmt
      split at hstmt
      · simp at hstmt
      · split at hstmt
        · simp at hstmt
        · split at hstmt
          · simp at hstmt
          · simp only [Except.ok.injEq, Prod.mk.injEq] at hstmt
            obtain ⟨rfl, rfl⟩ := hstmt
            exact ⟨rfl, rfl⟩

/-- A failed `insert` of a File commits nothing. -/
theorem insertFile_error (env : Env) (db : DB) (tx tx1 : Tx) (f : File) (e : Error)
    (hst : tx.status = TxStatus.active)
    (h : insertFile env db tx f = (Except.error e, tx1)) :
    tx1.status ≠ TxStatus.committed := by
  unfold insertFile at h
  split at h
  · simp only [Prod.mk.injEq, Except.error.injEq] at h
    obtain ⟨-, rfl⟩ := h
    unfold insertFailed rollback
    split <;> simp [hst]
  · split at h
    · simp only [Prod.mk.injEq, Except.error.injEq] at h
      obtain ⟨-, rfl⟩ := h
      unfold insertFailed rollback
      split <;> simp [hst]
    · simp at h

/-- A successful `insert` of a Commit appends it under the next rowid. -/
theorem insertCommit_ok (env : Env) (db : DB) (tx tx1 : Tx) (c : Commit) (id : Nat)
    (h : insertCommit env db tx c = (Except.ok id, tx1)) :
    id = nextID (tx.commits.map Commit.id) ∧
    tx1 = { tx with commits := tx.commits ++
      [{ c with id := nextID (tx.commits.map Commit.id) }] } := by
  unfold insertCommit at h
  split at h
  · simp at h
  · simp only [Prod.mk.injEq, Except.ok.injEq] at h
    obtain ⟨rfl, rfl⟩ := h
    exact ⟨rfl, rfl⟩

/-- A failed `insert` of a Commit commits nothing. -/
theorem insertCommit_error (env : Env) (db : DB) (tx tx1 : Tx) (c : Commit) (e : Error)
    (hst : tx.status = TxStatus.active)
    (h : insertCommit env db tx c = (Except.error e, tx1)) :
    tx1.status ≠ TxStatus.committed := by
  unfold insertCommit at h
  split at h
  · simp only [Prod.mk.injEq, Except.error.injEq] at h
    obtain ⟨-, rfl⟩ := h
    unfold insertFailed rollback
    split <;> simp [hst]
  · simp at h

/-- The File that `GetFile` returns is a row of its query. -/
theorem GetFile_ok (env : Env) (db : DB) (username alias_ : String) (fv : FileView)
    (h : GetFile env db username alias_ = Except.ok fv) :
    ∃ c, (fv.file, c) ∈ getFileRows db username alias_ := by
  unfold GetFile at h
  simp only at h
  split at h
  · simp at h
  · split at h
    · simp at h
    · rename_i f c hhead
      split at h
      · simp at h
      · simp only [Except.ok.injEq] at h
        subst h
        exact ⟨c, List.mem_of_mem_head? hhead⟩

/-- The Commit that `GetCommit` returns is a row of its join. -/
theorem GetCommit_ok (env : Env) (db : DB) (username alias_ hash : String) (c : Commit)
    (h : GetCommit env db username alias_ hash = Except.ok c) :
    c ∈ commitRows db username alias_ hash := by
  unfold GetCommit at h
  split at h
  · simp at h
  · split at h
    · simp at h
    · rename_i c2 hhead
      simp only [Except.ok.injEq] at h
      subst h
      exact List.mem_of_mem_head? hhead

/-- A successful `setFileToCommitID` is the update, and leaves the status. -/
theorem setFileToCommitID_ok (env : Env) (db : DB) (tx tx1 : Tx) (fileID commitID : Nat)
    (h : setFileToCommitID env db tx fileID commitID = (none, tx1)) :
    tx1 = { tx with files := tx.files.map fun f =>
      if f.id = fileID then
        { f with currentCommitID := some commitID, updatedAt := env.now }
      else f } := by
  unfold setFileToCommitID at h
  split at h
  · simp at h
  · simp only [Prod.mk.injEq, true_and] at h
    exact h.symm

/-- A failed `setFileToCommitID` has rolled the transaction back. -/
theorem setFileToCommitID_error (env : Env) (db : DB) (tx tx1 : Tx) (fileID commitID : Nat)
    (e : Error) (h : setFileToCommitID env db tx fileID commitID = (some e, tx1)) :
    tx1.status = TxStatus.rolledBack := by
  unfold setFileToCommitID at h
  split at h
  · simp only [rollback, Prod.mk.injEq, Option.some.injEq] at h
    obtain ⟨-, rfl⟩ := h
    rfl
  · simp at h

/-- Nothing is committed when `ForkFile` fails: whenever it returns an error,
the committed tables are those before the call and the transaction, if one was
begun, has not been committed. -/
theorem ForkFile_error_commits_nothing (env : Env) (db : DB) (username alias_ hash : String)
    (newUserID : Nat)
    (herr : (ForkFile env db username alias_ hash newUserID).err ≠ none) :
    (ForkFile env db username alias_ hash newUserID).db = db ∧
    (∀ f ∈ (ForkFile env db username alias_ hash newUserID).db.files, f ∈ db.files) ∧
    (∀ tx, (ForkFile env db username alias_ hash newUserID).tx = some tx →
      tx.status ≠ TxStatus.committed) := by
  have key : (ForkFile env db username alias_ hash newUserID).db = db ∧
      (∀ tx, (ForkFile env db username alias_ hash newUserID).tx = some tx →
        tx.status ≠ TxStatus.committed) := by
    unfold ForkFile at herr ⊢
    cases hb : env.fault Site.begin with
    | some e => simp
    | none =>
      simp only [hb] at herr ⊢
      cases hg : GetFile env db username alias_ with
      | error e => simp [rollback]
      | ok fileForkee =>
        simp only [hg] at herr ⊢
        rcases hi : insertFile env db (beginTx db)
          { id := 0, userID := newUserID, alias_ := alias_, path := fileForkee.file.path,
            currentCommitID := none, createdAt := 0, updatedAt := 0 } with ⟨r1, tx1⟩
        cases r1 with
        | error e =>
          simp only [true_and, Option.some.injEq]
          intro tx htx
          subst htx
          exact insertFile_error env db _ _ _ e rfl hi
        | ok newFileID =>
          simp only [hi] at herr ⊢
          have htx1 := (insertFile_ok env db _ _ _ _ hi).2
          cases hc : GetCommit env db username alias_ hash with
          | error e => simp [rollback]
          | ok commitForkee =>
            simp only [hc] at herr ⊢
            rcases hic : insertCommit env db tx1
              { commitForkee with
                fileID := newFileID
                forkedFrom := some commitForkee.id
                message := "/" ++ username ++ "/" ++ alias_ ++ "/" ++ hash } with ⟨r2, tx2⟩
            cases r2 with
            | error e =>
              simp only [true_and, Option.some.injEq]
              intro tx htx
              subst htx
              exact insertCommit_error env db _ _ _ e (by rw [htx1]; rfl) hic
            | ok newCommitID =>
              simp only [hic] at herr ⊢
              have htx2 := (insertCommit_ok env db _ _ _ _ hic).2
              rcases hs : setFileToCommitID env db tx2 newFileID newCommitID with ⟨r3, tx3⟩
              cases r3 with
              | some e =>
                simp only [true_and, Option.some.injEq]
                intro tx htx
                subst htx
                rw [setFileToCommitID_error env db _ _ _ _ e hs]
                simp
              | none =>
                simp only [hs] at herr ⊢
                have htx3 := setFileToCommitID_ok env db _ _ _ _ hs
                cases hcm : env.fault Site.commit with
                | some e =>
                  simp only [true_and, Option.some.injEq]
                  intro tx htx
                  subst htx
                  rw [htx3, htx2, htx1]
                  simp [beginTx]
                | none => simp [hcm] at herr
  refine ⟨key.1, ?_, key.2⟩
  rw [key.1]
  exact fun f hf => hf

/-- The update of `setFileToCommitID` aimed at the next rowid changes no
existing row. -/
theorem map_update_fresh (files : List File) (cid now : Nat) :
    files.map (fun f =>
      if f.id = nextID (files.map File.id) then
        { f with currentCommitID := some cid, updatedAt := now }
      else f) = files := by
  have h : ∀ f ∈ files, (fun f : File =>
      if f.id = nextID (files.map File.id) then
        { f with currentCommitID := some cid, updatedAt := now }
      else f) f = id f := by
    intro f hf
    have hlt := lt_nextID (files.map File.id) f.id (List.mem_map_of_mem File.id hf)
    have hne : f.id ≠ nextID (files.map File.id) := by omega
    simp [hne]
  rw [List.map_congr_left h, List.map_id]

/-- C2 (amended). Fork fidelity: after a successful `ForkFile` there are a
source File `src` of the user `username` whose alias equals the argument
`alias_` up to ASCII case (as the alias column compares) and a source commit
`sc` with the hash `hash` in the chain of such a File, and the tables are those
before the call with exactly one File row and one Commit row appended: the File
is owned by `newUserID`, has the alias `alias_` as given and the path of `src`,
and its current commit is the new Commit; the new Commit belongs to the new
File, has the hash and the revision bytes of `sc`, is forked from `sc.id`, and
its message is "/username/alias/hash". -/
theorem ForkFile_fidelity (env : Env) (db : DB) (username alias_ hash : String)
    (newUserID : Nat)
    (hok : (ForkFile env db username alias_ hash newUserID).err = none) :
    ∃ src ∈ db.files, ∃ u ∈ db.users, ∃ sc ∈ db.commits, ∃ sf ∈ db.files, ∃ su ∈ db.users,
      (src.userID = u.id ∧ u.username = username ∧ nocase src.alias_ = nocase alias_) ∧
      (sf.id = sc.fileID ∧ sf.userID = su.id ∧ su.username = username ∧
        nocase sf.alias_ = nocase alias_ ∧ sc.hash = hash) ∧
      (ForkFile env db username alias_ hash newUserID).db =
        { users := db.users,
          files := db.files ++
            [{ id := nextID (db.files.map File.id),
               userID := newUserID,
               alias_ := alias_,
               path := src.path,
               currentCommitID := some (nextID (db.commits.map Commit.id)),
               createdAt := env.now,
               updatedAt := env.now }],
          commits := db.commits ++
            [{ id := nextID (db.commits.map Commit.id),
               fileID := nextID (db.files.map File.id),
               hash := sc.hash,
               revision := sc.revision,
               message := "/" ++ username ++ "/" ++ alias_ ++ "/" ++ hash,
               forkedFrom := some sc.id,
               timestamp := sc.timestamp }] } := by
  unfold ForkFile at hok ⊢
  cases hb : env.fault Site.begin with
  | some e => simp [hb] at hok
  | none =>
    simp only [hb] at hok ⊢
    cases hg : GetFile env db username alias_ with
    | error e => simp [hg] at hok
    | ok fileForkee =>
      simp only [hg] at hok ⊢
      obtain ⟨cur, hrow⟩ := GetFile_ok env db username alias_ fileForkee hg
      obtain ⟨hsrc, -, u, hu, hsu, -, hun, hal⟩ :=
        (mem_getFileRows db username alias_ fileForkee.file cur).1 hrow
      rcases hi : insertFile env db (beginTx db)
        { id := 0, userID := newUserID, alias_ := alias_, path := fileForkee.file.path,
          currentCommitID := none, createdAt := 0, updatedAt := 0 } with ⟨r1, tx1⟩
      cases r1 with
      | error e => simp [hi] at hok
      | ok newFileID =>
        simp only [hi] at hok ⊢
        obtain ⟨hid1, htx1⟩ := insertFile_ok env db _ _ _ _ hi
        cases hc : GetCommit env db username alias_ hash with
        | error e => simp [hc, rollback] at hok
        | ok commitForkee =>
          simp only [hc] at hok ⊢
          obtain ⟨hsc, sf, hsf, su, hsu2, hcond⟩ :=
            (mem_commitRows db username alias_ hash commitForkee).1
              (GetCommit_ok env db username alias_ hash commitForkee hc)
          rcases hic : insertCommit env db tx1
            { commitForkee with
              fileID := newFileID
              forkedFrom := some commitForkee.id
              message := "/" ++ username ++ "/" ++ alias_ ++ "/" ++ hash } with ⟨r2, tx2⟩
          cases r2 with
          | error e => simp [hic] at hok
          | ok newCommitID =>
            simp only [hic] at hok ⊢
            obtain ⟨hid2, htx2⟩ := insertCommit_ok env db _ _ _ _ hic
            rcases hs : setFileToCommitID env db tx2 newFileID newCommitID with ⟨r3, tx3⟩
            cases r3 with
            | some e => simp [hs] at hok
            | none =>
              simp only [hs] at hok ⊢
              have htx3 := setFileToCommitID_ok env db _ _ _ _ hs
              cases hcm : env.fault Site.commit with
              | some e => simp [hcm] at hok
              | none =>
                refine ⟨fileForkee.file, hsrc, u, hu, commitForkee, hsc, sf, hsf, su, hsu2,
                  ⟨hsu, hun, hal⟩, hcond, ?_⟩
                simp only
                rw [htx3, htx2, htx1]
                subst hid1 hid2
                rw [htx1]
                simp only [beginTx, List.map_append, List.map_cons, List.map_nil,
                  map_update_fresh, if_true]

/-- C2 (as stated, refuted). Bob's File has the alias "bashrc"; the fork asked
for as "BASHRC" succeeds, and the File it creates has the alias "BASHRC", which
is the alias of no File of the source user. -/
theorem ForkFile_alias_differs_in_case :
    (ForkFile sampleEnv sampleDB "bob" "BASHRC" "h1" 2).err = none ∧
    (ForkFile sampleEnv sampleDB "bob" "BASHRC" "h1" 2).db.files =
      sampleDB.files ++ [⟨3, 2, "BASHRC", "~/.bashrc", some 2, 7, 7⟩] ∧
    (∀ f ∈ sampleDB.files, f.alias_ ≠ "BASHRC") := by
  decide

/-- Witness of `ForkFile_fidelity`: alice forks bob's bashrc at h1, asking for
it in upper case. -/
theorem ForkFile_fidelity_witness :
    (ForkFile sampleEnv sampleDB "bob" "BASHRC" "h1" 2).err = none ∧
    ∃ src ∈ sampleDB.files, ∃ u ∈ sampleDB.users, ∃ sc ∈ sampleDB.commits,
      ∃ sf ∈ sampleDB.files, ∃ su ∈ sampleDB.users,
      (src.userID = u.id ∧ u.username = "bob" ∧ nocase src.alias_ = nocase "BASHRC") ∧
      (sf.id = sc.fileID ∧ sf.userID = su.id ∧ su.username = "bob" ∧
        nocase sf.alias_ = nocase "BASHRC" ∧ sc.hash = "h1") ∧
      (ForkFile sampleEnv sampleDB "bob" "BASHRC" "h1" 2).db =
        { users := sampleDB.users,
          files := sampleDB.files ++
            [{ id := nextID (sampleDB.files.map File.id),
               userID := 2,
               alias_ := "BASHRC",
               path := src.path,
               currentCommitID := some (nextID (sampleDB.commits.map Commit.id)),
               createdAt := sampleEnv.now,
               updatedAt := sampleEnv.now }],
          commits := sampleDB.commits ++
            [{ id := nextID (sampleDB.commits.map Commit.id),
               fileID := nextID (sampleDB.files.map File.id),
               hash := sc.hash,
               revision := sc.revision,
               message := "/" ++ "bob" ++ "/" ++ "BASHRC" ++ "/" ++ "h1",
               forkedFrom := some sc.id,
               timestamp := sc.timestamp }] } :=
  ⟨by decide, ForkFile_fidelity sampleEnv sampleDB "bob" "BASHRC" "h1" 2 (by decide)⟩

/-- The sample fork, evaluated: the tables after alice forks bob's bashrc at h1. -/
theorem ForkFile_sample :
    (ForkFile sampleEnv sampleDB "bob" "bashrc" "h1" 2).db =
      { users := sampleDB.users,
        files := sampleDB.files ++ [⟨3, 2, "bashrc", "~/.bashrc", some 2, 7, 7⟩],
        commits := sampleDB.commits ++
          [⟨2, 3, "h1", [1, 2], "/bob/bashrc/h1", some 1, 0⟩] } := by
  decide

/-- C1 (the code at the failing input). When the File insertion has succeeded
and the insert of the copied commit then fails with `e` (the helper `insert`
not rolling back by itself), `ForkFile` returns `e` without any rollback: the
transaction it leaves behind is still active, neither committed nor rolled
back, and still holds the inserted File row of `newUserID`, which has no
current commit, next to the unchanged commits. -/
theorem ForkFile_returns_without_rollback (env : Env) (db : DB)
    (username alias_ hash : String) (newUserID : Nat)
    (fv : FileView) (id : Nat) (tx1 : Tx) (c : Commit) (e : Error)
    (hb : env.fault Site.begin = none)
    (hg : GetFile env db username alias_ = Except.ok fv)
    (hi : insertFile env db (beginTx db)
      { id := 0, userID := newUserID, alias_ := alias_, path := fv.file.path,
        currentCommitID := none, createdAt := 0, updatedAt := 0 } = (Except.ok id, tx1))
    (hc : GetCommit env db username alias_ hash = Except.ok c)
    (hf : env.fault Site.insertCommit = some e)
    (hrb : env.insertRollsBack e = false) :
    (ForkFile env db username alias_ hash newUserID).err = some e ∧
    (ForkFile env db username alias_ hash newUserID).tx =
      some { files := db.files ++
               [{ id := nextID (db.files.map File.id),
                  userID := newUserID,
                  alias_ := alias_,
                  path := fv.file.path,
                  currentCommitID := none,
                  createdAt := env.now,
                  updatedAt := env.now }],
             commits := db.commits,
             status := TxStatus.active } := by
  obtain ⟨-, htx1⟩ := insertFile_ok env db _ _ _ _ hi
  simp only [ForkFile, hb, hg, hi, hc, insertCommit, hf, insertFailed, hrb]
  rw [htx1]
  simp [beginTx]

/-- Witness of `ForkFile_returns_without_rollback`: alice forks bob's bashrc at
h1 and the driver fails on the insert of the copied commit. -/
theorem ForkFile_returns_without_rollback_witness :
    (ForkFile (sampleEnvFailing Site.insertCommit) sampleDB "bob" "bashrc" "h1" 2).err
      = some (Error.driver "disk I/O error") ∧
    (ForkFile (sampleEnvFailing Site.insertCommit) sampleDB "bob" "bashrc" "h1" 2).tx =
      some { files := sampleDB.files ++
               [{ id := nextID (sampleDB.files.map File.id),
                  userID := 2,
                  alias_ := "bashrc",
                  path := "~/.bashrc",
                  currentCommitID := none,
                  createdAt := (sampleEnvFailing Site.insertCommit).now,
                  updatedAt := (sampleEnvFailing Site.insertCommit).now }],
             commits := sampleDB.commits,
             status := TxStatus.active } :=
  ForkFile_returns_without_rollback (sampleEnvFailing Site.insertCommit) sampleDB
    "bob" "bashrc" "h1" 2
    { file := ⟨1, 1, "bashrc", "~/.bashrc", some 1, 0, 0⟩, content := [1, 2], hash := "h1" }
    3
    { files := sampleDB.files ++ [⟨3, 2, "bashrc", "~/.bashrc", none, 7, 7⟩],
      commits := sampleDB.commits, status := TxStatus.active }
    ⟨1, 1, "h1", [1, 2], "init", none, 0⟩
    (Error.driver "disk I/O error")
    rfl rfl rfl rfl rfl rfl

/-- The sibling paths, evaluated: when the lookup of the source commit fails, or
the update of `setFileToCommitID` fails, the transaction has been rolled back
and holds no new row; when `Commit` itself fails, `ForkFile` returns without a
rollback as well. -/
theorem ForkFile_sibling_paths :
    (ForkFile (sampleEnvFailing Site.getCommit) sampleDB "bob" "bashrc" "h1" 2).tx
      = some { files := sampleDB.files,
               commits := sampleDB.commits,
               status := TxStatus.rolledBack } ∧
    (ForkFile (sampleEnvFailing Site.setFileToCommitID) sampleDB "bob" "bashrc" "h1" 2).tx
      = some { files := sampleDB.files,
               commits := sampleDB.commits,
               status := TxStatus.rolledBack } ∧
    (ForkFile (sampleEnvFailing Site.commit) sampleDB "bob" "bashrc" "h1" 2).tx
      = some { files := sampleDB.files ++ [⟨3, 2, "bashrc", "~/.bashrc", some 2, 7, 7⟩],
               commits := sampleDB.commits ++
                 [⟨2, 3, "h1", [1, 2], "/bob/bashrc/h1", some 1, 0⟩],
               status := TxStatus.active } := by
  decide

/-! ## The revision engine and checkout -/

/-- The replay reads the storer only through its revisions. -/
theorem replay_congr (k : Codec) (s s2 : Storer) (h : s.revision = s2.revision)
    (content : Bytes) (chain : List String) :
    replay k s content chain = replay k s2 content chain := by
  induction chain generalizing content with
  | nil => rfl
  | cons a rest ih => simp only [replay, h, ih]

/-- Reconstruction does not read the working copy. -/
theorem Reconstruct_dirtyContent (k : Codec) (s : Storer) (d : Except Failure Bytes)
    (hash : String) :
    Reconstruct k { s with dirtyContent := d } hash = Reconstruct k s hash := by
  unfold Reconstruct
  simp only [replay_congr k { s with dirtyContent := d } s rfl]

/-- C5. Dirty detection: when reconstructing the commit gives `content` and
reading the working copy gives `dirty`, `IsClean` returns a boolean that is true
if and only if `dirty = content`; and if the working copy was clean, changing
the byte at any one position of it makes `IsClean` return false. -/
theorem IsClean_iff_identical (k : Codec) (s : Storer) (hash : String)
    (content dirty : Bytes)
    (hrec : Reconstruct k s hash = Except.ok content)
    (hread : s.dirtyContent = Except.ok dirty) :
    (∃ b, IsClean k s hash = Except.ok b ∧ (b = true ↔ dirty = content)) ∧
    (IsClean k s hash = Except.ok true →
      ∀ (i : Nat) (hi : i < dirty.length) (b : UInt8), b ≠ dirty[i] →
        IsClean k { s with dirtyContent := Except.ok (dirty.set i b) } hash
          = Except.ok false) := by
  constructor
  · exact ⟨decide (dirty = content), by simp [IsClean, hrec, hread], by simp⟩
  · intro hclean i hi b hb
    have heq : dirty = content := by
      simpa [IsClean, hrec, hread] using hclean
    have hne : dirty.set i b ≠ content := by
      intro h
      have hlen : i < (dirty.set i b).length := by simpa using hi
      have h1 : (dirty.set i b)[i] = b := by simp
      have h2 : (dirty.set i b)[i] = dirty[i] := by
        simp only [h, ← heq]
      exact hb (h1.symm.trans h2)
    simp [IsClean, Reconstruct_dirtyContent, hrec, hne]

/-- Witness of `IsClean_iff_identical`: the sample File with a clean working copy. -/
theorem IsClean_iff_identical_witness :
    Reconstruct sampleCodec (sampleTracked.storer (sampleLocal (some [1, 2]))) "h2"
      = Except.ok [1, 2] ∧
    (sampleTracked.storer (sampleLocal (some [1, 2]))).dirtyContent = Except.ok [1, 2] ∧
    (∃ b, IsClean sampleCodec (sampleTracked.storer (sampleLocal (some [1, 2]))) "h2"
        = Except.ok b ∧ (b = true ↔ ([1, 2] : Bytes) = [1, 2])) :=
  ⟨rfl, rfl,
    (IsClean_iff_identical sampleCodec (sampleTracked.storer (sampleLocal (some [1, 2])))
      "h2" [1, 2] [1, 2] rfl rfl).1⟩

/-- C6. Checkout protects uncommitted edits. For an alias that is not tracked,
checkout fails with NotTracked and changes nothing. For a tracked File whose
working copy exists and differs from the content reconstructed at its current
commit (Dirty), checkout fails with Conflict and the state (working copy and
current-commit pointer included) is unchanged. For a tracked File whose
working-copy file is absent (Missing) and a target that reconstructs to
`content`, checkout succeeds, the working-copy path holds exactly `content`,
every other path is as before, and the File is checked out to the target. -/
theorem checkout_protects_edits (k : Codec) (st : Local) (alias_ hash : String) :
    (st.tracked alias_ = none →
      checkout k st alias_ hash = (some Failure.notTracked, st)) ∧
    (∀ t wc current content, st.tracked alias_ = some t →
      st.disk t.path = some wc → t.currentCommitHash = some current →
      Reconstruct k (t.storer st) current = Except.ok content → wc ≠ content →
      checkout k st alias_ hash = (some Failure.conflict, st)) ∧
    (∀ t content, st.tracked alias_ = some t → st.disk t.path = none →
      Reconstruct k (t.storer st) hash = Except.ok content →
      (checkout k st alias_ hash).1 = none ∧
      (checkout k st alias_ hash).2.disk t.path = some content ∧
      (∀ p, p ≠ t.path → (checkout k st alias_ hash).2.disk p = st.disk p) ∧
      (checkout k st alias_ hash).2.tracked alias_
        = some { t with currentCommitHash := some hash } ∧
      (∀ a, a ≠ alias_ → (checkout k st alias_ hash).2.tracked a = st.tracked a)) := by
  refine ⟨?_, ?_, ?_⟩
  · intro h
    simp [checkout, h]
  · intro t wc current content ht hwc hcur hrec hne
    have hread : (t.storer st).dirtyContent = Except.ok wc := by
      simp [Tracked.storer, hwc]
    simp [checkout, ht, hwc, hcur, IsClean, hrec, hread, hne]
  · intro t content ht hwc hrec
    have hrun : checkout k st alias_ hash = checkoutWrite k st alias_ t hash := by
      simp [checkout, ht, hwc]
    rw [hrun]
    simp only [checkoutWrite, hrec]
    refine ⟨trivial, by simp, ?_, by simp, ?_⟩
    · intro p hp
      simp [hp]
    · intro a ha
      simp [ha]

/-- Witness of `checkout_protects_edits`: the sample File, first with an edited
working copy, then with the working copy deleted. -/
theorem checkout_protects_edits_witness :
    checkout sampleCodec (sampleLocal (some [9])) "bashrc" "h1"
      = (some Failure.conflict, sampleLocal (some [9])) ∧
    (checkout sampleCodec (sampleLocal none) "bashrc" "h1").1 = none ∧
    (checkout sampleCodec (sampleLocal none) "bashrc" "h1").2.disk "~/.bashrc"
      = some [1] :=
  ⟨(checkout_protects_edits sampleCodec (sampleLocal (some [9])) "bashrc" "h1").2.1
      sampleTracked [9] "h2" [1, 2] rfl rfl rfl rfl (by decide),
    ((checkout_protects_edits sampleCodec (sampleLocal none) "bashrc" "h1").2.2
      sampleTracked [1] rfl rfl rfl).1,
    ((checkout_protects_edits sampleCodec (sampleLocal none) "bashrc" "h1").2.2
      sampleTracked [1] rfl rfl rfl).2.1⟩

end Dotfile
